import Mathlib

/-!
Shallow embedding of Rocket's request dispatch engine
(`src/core/lib/src/lifecycle.rs`) and the pieces of the surrounding data
model it relies on. Route and catcher handlers, the router lookup, the
fairing pipelines and the built-in default catcher are the opaque
capabilities the engine consumes; they are modelled as function-valued
fields so that theorems quantify over every possible behaviour, including
panicking handlers.
-/

namespace Lifecycle

/-- HTTP methods, as used by the lifecycle code (`Method` from the http
crate; only construction and equality are relevant here). -/
inductive Method where
  | get
  | put
  | post
  | delete
  | options
  | head
  | trace
  | connect
  | patch
deriving DecidableEq, Repr

/-- HTTP status, identified by its numeric code (`Status` from the http
crate). -/
structure Status where
  code : Nat
deriving DecidableEq, Repr

def Status.notFound : Status := ⟨404⟩

def Status.internalServerError : Status := ⟨500⟩

def Status.noContent : Status := ⟨204⟩

def Status.notModified : Status := ⟨304⟩

def Status.okStatus : Status := ⟨200⟩

/-- Modelled from the spec: content negotiation info on a request; the
lifecycle only asks whether the content type is form-encoded
(`content_type().map_or(false, |v| v.is_form())`). -/
structure ContentType where
  is_form : Bool
deriving DecidableEq, Repr

/-- A cookie, abstracted to its serialized `name=value` form; the delta
jar is a list of such cookies. -/
abbrev Cookie := String

/-- A response or request header: (name, value). Modelled from the spec:
the header map holds an ordered multiset of name/value pairs. -/
abbrev Header := String × String

/-- The request body data handed through the dispatch loop. Forwarding
returns ownership of it to the next candidate. Modelled as the raw
character sequence of the body. -/
abbrev Data := List Char

/-- Modelled from the spec: `Data::peek(n)` buffers and returns at most
the first `n` bytes of the body without consuming them. -/
def Data.peek (d : Data) (n : Nat) : List Char :=
  d.take n

/-- Modelled from the spec: a response body is empty, sized, or streamed;
it carries its payload and an optional known size. `Body::unsized_none()`
is the empty body with no size indicator. -/
structure Body where
  bytes : List Nat
  size? : Option Nat
deriving DecidableEq, Repr

def Body.unsized_none : Body := ⟨[], none⟩

/-- Source `Body::size()`: the known size of the body, if any. -/
def Body.size (b : Body) : Option Nat := b.size?

/-- Modelled from the spec: stripping a body removes its payload while
preserving the headers/size that describe it (used for HEAD and 304). -/
def Body.strip (b : Body) : Body := { b with bytes := [] }

/-- A response: status, ordered headers, body. -/
structure Response where
  status : Status
  headers : List Header
  body : Body
deriving DecidableEq, Repr

/-- Source `Response::headers().contains(name)`. -/
def Response.contains (r : Response) (n : String) : Bool :=
  r.headers.any (fun h => h.1 == n)

/-- Source `Response::set_header`: replace every header named `n` with the single
pair `(n, v)`. -/
def Response.set_header (r : Response) (n v : String) : Response :=
  { r with headers := r.headers.filter (fun h => !(h.1 == n)) ++ [(n, v)] }

/-- Source `Response::set_raw_header`: same replacement semantics on the model. -/
def Response.set_raw_header (r : Response) (n v : String) : Response :=
  r.set_header n v

/-- Source `Response::adjoin_header`: append a header, keeping existing ones. -/
def Response.adjoin_header (r : Response) (h : Header) : Response :=
  { r with headers := r.headers ++ [h] }

/-- Source `Response::strip_body`. -/
def Response.strip_body (r : Response) : Response :=
  { r with body := r.body.strip }

/-- The values of every header named `n`, in order. -/
def Response.headerValues (r : Response) (n : String) : List String :=
  r.headers.filterMap (fun h => if h.1 = n then some h.2 else none)

/-- Source `route::Outcome`: the tri-state result of a route handler.
`forward` carries the remaining body data and the fallback status. -/
inductive Outcome where
  | success (r : Response)
  | error (s : Status)
  | forward (d : Data) (s : Status)
deriving DecidableEq, Repr

/-- The behaviour of one awaited handler future: it either panics while
being polled or runs to completion with a value. -/
inductive FutResult (T : Type) where
  | panicAwait
  | value (t : T)
deriving DecidableEq, Repr

/-- The behaviour of one handler invocation `run()`: the closure either
panics synchronously while constructing its future, or yields a future
with the given awaited behaviour. -/
inductive RunResult (T : Type) where
  | panicSetup
  | future (f : FutResult T)
deriving DecidableEq, Repr

/-- Whether the invocation terminates abnormally (at either stage). -/
def RunResult.isPanic {T : Type} : RunResult T → Bool
  | .panicSetup => true
  | .future .panicAwait => true
  | .future (.value _) => false

/-- Source `catch_handle`: runs a handler invocation under two panic guards (one
around constructing the future, one around awaiting it) and converts an
abnormal termination at either stage into `none`. -/
def catch_handle {T : Type} : RunResult T → Option T
  | .panicSetup => none
  | .future .panicAwait => none
  | .future (.value t) => some t

/-- A raw form field, split from the body prefix. -/
structure FormField where
  name : String
  value : String
deriving DecidableEq, Repr

/-- Split a character sequence on every occurrence of `c`. -/
def splitOnChar (c : Char) : List Char → List (List Char)
  | [] => [[]]
  | x :: xs =>
    match splitOnChar c xs with
    | [] => if x = c then [[], []] else [[x]]
    | y :: ys => if x = c then [] :: y :: ys else (x :: y) :: ys

/-- Split a character sequence at the first occurrence of `c`: the part
before it and the part after it (the whole input and `[]` when `c` does
not occur). -/
def splitFirst (c : Char) : List Char → List Char × List Char
  | [] => ([], [])
  | x :: xs =>
    if x = c then ([], xs)
    else
      match splitFirst c xs with
      | (a, b) => (x :: a, b)

/-- Modelled from the spec: `Form::values` splits a raw url-encoded form
string into its fields in order; each field's name is the text before the
first `=`, its value the text after. (The form parser lives outside the
dispatch engine's sources.) -/
def Form.values (raw : List Char) : List FormField :=
  (splitOnChar '&' raw).map (fun s =>
    match splitFirst '=' s with
    | (n, v) => ⟨String.mk n, String.mk v⟩)

/-- Modelled from the spec: `str::parse::<Method>()`, accepting the
standard HTTP method names. -/
def Method.parse (s : String) : Option Method :=
  if s = "GET" then some .get
  else if s = "PUT" then some .put
  else if s = "POST" then some .post
  else if s = "DELETE" then some .delete
  else if s = "OPTIONS" then some .options
  else if s = "HEAD" then some .head
  else if s = "TRACE" then some .trace
  else if s = "CONNECT" then some .connect
  else if s = "PATCH" then some .patch
  else none

/-- The per-request state the dispatch engine reads and mutates: the
effective method, content negotiation info, the cookie jar's delta (the
cookies added since tracking was last reset), and the attached-route
slot that `Request::set_route` overwrites on each attempt. -/
structure Request where
  method : Method
  contentType? : Option ContentType
  cookieDelta : List Cookie
  routeSlot : Option (Option String)
deriving DecidableEq, Repr

/-- Source `Request::set_route`: attach the (name of the) route currently
serving the request. -/
def Request.set_route (req : Request) (n : Option String) : Request :=
  { req with routeSlot := some n }

/-- Source `Request::set_method` and `Request::_set_method`. -/
def Request.set_method (req : Request) (m : Method) : Request :=
  { req with method := m }

/-- Source `cookies().reset_delta()`: clear the delta tracking. -/
def Request.reset_delta (req : Request) : Request :=
  { req with cookieDelta := [] }

/-- A registered route: its optional display name and its handler
capability. The handler returns its invocation behaviour (which may be a
panic at either stage) together with the cookies it added to the
request's jar while it ran. -/
structure Route where
  name : Option String
  handler : Request → Data → RunResult Outcome × List Cookie

/-- A registered catcher: its optional name and its handler capability,
returning a response or a failure status (or panicking). -/
structure Catcher where
  name : Option String
  handler : Status → Request → RunResult (Except Status Response) × List Cookie

/-- Source `RequestToken`: returned by `preprocess` to force its execution
before `dispatch`. -/
structure RequestToken where

/-- The engine's view of a `Rocket<Orbit>` instance: the router lookups,
the built-in default catcher, both fairing pipelines, and the two pieces
of configuration the finalizer reads. All are opaque capabilities. -/
structure Rocket where
  router_route : Request → List Route
  router_catch : Status → Request → Option Catcher
  /-- Modelled from the spec: `catcher::default_handler`, the infallible
  built-in default catcher — an arbitrary total function. -/
  default_handler : Status → Request → Response
  request_fairings : List (Request → Data → Request × Data)
  response_fairings : List (Request → Response → Response)
  ident? : Option String
  alt_svc? : Option String

/-- The `_method` override step at the top of `preprocess`: only for
`POST` requests whose content type is form-encoded, peek at the first 32
bytes of the body, parse them as form fields, and if the first field is
named `_method` and its value parses as a method, rewrite the request's
method in place. -/
def preprocess_method_override (req : Request) (data : Data) : Request :=
  if req.method = Method.post ∧ (req.contentType?.map (·.is_form)).getD false = true then
    let peek_buffer := data.peek 32
    let method :=
      ((Form.values peek_buffer).head?.filter (fun field => field.name = "_method")).bind
        (fun field => Method.parse field.value)
    match method with
    | some m => req.set_method m
    | none => req
  else req

/-- Source `Rocket::preprocess`: run the `_method` override, then the request
fairing pipeline, and return the ordering token. -/
def Rocket.preprocess (R : Rocket) (req : Request) (data : Data) :
    RequestToken × Request × Data :=
  let req1 := preprocess_method_override req data
  let p := R.request_fairings.foldl (fun (p : Request × Data) f => f p.1 p.2) (req1, data)
  (⟨⟩, p.1, p.2)

/-- The body of `Rocket::route`: try each candidate route in order,
attaching it to the request, invoking its handler under `catch_handle`
(a panic maps to `Error(InternalServerError)`), returning the first
`Success` or `Error` immediately, and carrying the data and fallback
status across each `Forward`; exhaustion returns a `Forward` with the
remaining data and last status. Besides the outcome it returns the
updated request state and the trace of invoked route names. -/
def routeLoop : List Route → Request → Data → Status →
    Outcome × Request × List (Option String)
  | [], req, d, status => (Outcome.forward d status, req, [])
  | route :: rest, req, d, status =>
    let req1 := req.set_route route.name
    let invoked := route.handler req1 d
    let req2 := { req1 with cookieDelta := req1.cookieDelta ++ invoked.2 }
    match (catch_handle invoked.1).getD (Outcome.error Status.internalServerError) with
    | Outcome.success r => (Outcome.success r, req2, [route.name])
    | Outcome.error e => (Outcome.error e, req2, [route.name])
    | Outcome.forward d2 s2 =>
      match routeLoop rest req2 d2 s2 with
      | (o, req3, t) => (o, req3, route.name :: t)

/-- Source `Rocket::route`: run the routing loop over the router's candidates
for this request, starting from the `NotFound` fallback status. -/
def Rocket.route (R : Rocket) (req : Request) (data : Data) :
    Outcome × Request × List (Option String) :=
  routeLoop (R.router_route req) req data Status.notFound

/-- Source `Rocket::invoke_catcher`: look up the catcher for `status`; if one is
registered, invoke it under `catch_handle` (`Err (some s)` for a handler
that ran and failed, `Err none` for a panic); otherwise use the built-in
default handler. The `Nat` counts user catcher-handler invocations. -/
def Rocket.invoke_catcher (R : Rocket) (status : Status) (req : Request) :
    Except (Option Status) Response × Request × Nat :=
  match R.router_catch status req with
  | some catcher =>
    let invoked := catcher.handler status req
    let req1 := { req with cookieDelta := req.cookieDelta ++ invoked.2 }
    let res : Except (Option Status) Response :=
      match catch_handle invoked.1 with
      | some (Except.ok r) => Except.ok r
      | some (Except.error s) => Except.error (some s)
      | none => Except.error none
    (res, req1, 1)
  | none => (Except.ok (R.default_handler status req), req, 0)

/-- The `loop` of `Rocket::dispatch_error`: invoke the catcher for
`status`; on success return its response; on failure retry once with
status 500, unless `status` already is 500, in which case fall back to
the infallible built-in default handler. Returns the response, the
updated request, and the number of user catcher invocations. -/
def Rocket.catcher_loop (R : Rocket) (status : Status) (req : Request) :
    Response × Request × Nat :=
  match R.invoke_catcher status req with
  | (Except.ok r, req1, n) => (r, req1, n)
  | (Except.error _, req1, n) =>
    if h : status.code = 500 then
      (R.default_handler Status.internalServerError req1, req1, n)
    else
      match R.catcher_loop Status.internalServerError req1 with
      | (r, req2, m) => (r, req2, n + m)
termination_by if status.code = 500 then 0 else 1
decreasing_by simp [Status.internalServerError, h]

/-- Source `Rocket::dispatch_error`: reset the cookie jar's delta tracking, then
run the catcher escalation loop. -/
def Rocket.dispatch_error (R : Rocket) (status : Status) (req : Request) :
    Response × Request × Nat :=
  R.catcher_loop status req.reset_delta

/-- Step 1 of response finalization (`dispatch` lines 119–124): the
cookies of the request's delta jar are adjoined to the response
headers. -/
def cookieStep (req : Request) (resp : Response) : Response :=
  req.cookieDelta.foldl (fun r c => r.adjoin_header ("Set-Cookie", c)) resp

/-- Step 2 (`dispatch` lines 126–132): add a default `Server` header from
the configured ident, only if the handler did not already set one. -/
def serverStep (R : Rocket) (resp : Response) : Response :=
  match R.ident? with
  | some ident => if resp.contains "Server" then resp else resp.set_header "Server" ident
  | none => resp

/-- Step 3 (`dispatch` line 135): run the response fairing pipeline. -/
def fairingStep (R : Rocket) (req : Request) (resp : Response) : Response :=
  R.response_fairings.foldl (fun r f => f req r) resp

/-- Step 4 (`dispatch` lines 137–140): strip the body of a `HEAD`
request's response or of a 304 response. -/
def stripStep (was_head_request : Bool) (resp : Response) : Response :=
  if was_head_request || (resp.status == Status.notModified) then resp.strip_body else resp

/-- Step 5 (`dispatch` lines 142–149): a 204 response loses its body and
its size indicator; otherwise a known body size becomes the
`Content-Length` header. -/
def sizeStep (resp : Response) : Response :=
  if resp.status = Status.noContent then
    { resp with body := Body.unsized_none }
  else
    match resp.body.size with
    | some size => resp.set_raw_header "Content-Length" (toString size)
    | none => resp

/-- Step 6 (`dispatch` lines 151–153): advertise alternate services. -/
def altSvcStep (R : Rocket) (resp : Response) : Response :=
  match R.alt_svc? with
  | some alt => resp.set_raw_header "Alt-Svc" alt
  | none => resp

/-- The finalization tail of `Rocket::dispatch` (lines 119–153): merge
the cookie delta into the headers (taking the delta jar), add a default
`Server` header if absent, run response fairings, strip the body on HEAD
or 304, apply the 204 / `Content-Length` rule, and attach `Alt-Svc` when
advertised. -/
def Rocket.finalize (R : Rocket) (was_head_request : Bool) (req : Request)
    (resp : Response) : Response × Request :=
  let req1 := { req with cookieDelta := [] }
  (altSvcStep R (sizeStep (stripStep was_head_request
      (fairingStep R req1 (serverStep R (cookieStep req resp))))), req1)

/-- Source `Rocket::dispatch`: route the request; on a `Forward` of an original
`HEAD` request, rewrite the method to `GET` in place and route again
(at most once); hand any remaining `Forward`/`Error` to `dispatch_error`;
then finalize whichever response resulted. -/
def Rocket.dispatch (R : Rocket) (_token : RequestToken) (request : Request)
    (data : Data) : Response × Request :=
  let was_head_request := decide (request.method = Method.head)
  match R.route request data with
  | (Outcome.success r, reqA, _) => R.finalize was_head_request reqA r
  | (Outcome.forward fd fs, reqA, _) =>
    if reqA.method = Method.head then
      let reqB := reqA.set_method Method.get
      match R.route reqB fd with
      | (Outcome.success r, reqC, _) => R.finalize was_head_request reqC r
      | (Outcome.error s, reqC, _) =>
        match R.dispatch_error s reqC with
        | (r, reqD, _) => R.finalize was_head_request reqD r
      | (Outcome.forward _ s2, reqC, _) =>
        match R.dispatch_error s2 reqC with
        | (r, reqD, _) => R.finalize was_head_request reqD r
    else
      match R.dispatch_error fs reqA with
      | (r, reqD, _) => R.finalize was_head_request reqD r
  | (Outcome.error s, reqA, _) =>
    match R.dispatch_error s reqA with
    | (r, reqD, _) => R.finalize was_head_request reqD r

/-! Helper views of one iteration of the routing loop, used to state the
loop's semantics: the guarded outcome of invoking a route's handler on the
request with that route attached, and the request state afterwards. -/

/-- The outcome the routing loop acts on for candidate `rt`: the handler
is run on the request with `rt` attached, under `catch_handle`, and a
panic maps to `Error(InternalServerError)`. -/
def guardedOutcome (rt : Route) (req : Request) (d : Data) : Outcome :=
  (catch_handle (rt.handler (req.set_route rt.name) d).1).getD
    (Outcome.error Status.internalServerError)

/-- The request state after the routing loop has invoked candidate `rt`:
the route is attached and the cookies the handler added are appended to
the jar's delta. -/
def afterInvoke (rt : Route) (req : Request) (d : Data) : Request :=
  { req.set_route rt.name with
    cookieDelta :=
      (req.set_route rt.name).cookieDelta ++ (rt.handler (req.set_route rt.name) d).2 }

/-- Whether every invocation of this catcher's handler terminates
abnormally. -/
def Catcher.alwaysPanics (c : Catcher) : Prop :=
  ∀ (s : Status) (r : Request), ((c.handler s r).1).isPanic = true

/-! Concrete fixtures used by the witness theorems. -/

/-- A catcher whose handler always panics while setting up its future. -/
def panicCatcher : Catcher := ⟨some "boom", fun _ _ => (RunResult.panicSetup, [])⟩

/-- A route whose handler always panics while setting up its future. -/
def panicRoute : Route := ⟨some "boom", fun _ _ => (RunResult.panicSetup, [])⟩

/-- A plain 200 response with an empty unsized body. -/
def respOk : Response := ⟨Status.okStatus, [], Body.unsized_none⟩

/-- A route that succeeds with `respOk` and adds no cookies. -/
def routeOk : Route :=
  ⟨some "ok", fun _ _ => (RunResult.future (FutResult.value (Outcome.success respOk)), [])⟩

/-- A route that adds the cookie `a=1` to the jar and forwards. -/
def routeSetCookie : Route :=
  ⟨some "sets-cookie",
    fun _ _ => (RunResult.future (FutResult.value (Outcome.forward [] Status.notFound)), ["a=1"])⟩

/-- A route that fails with status 400. -/
def routeErr : Route :=
  ⟨some "errs", fun _ _ => (RunResult.future (FutResult.value (Outcome.error ⟨400⟩)), [])⟩

/-- A route that adds the cookie `b=2` to the jar and succeeds. -/
def routeOkCookie : Route :=
  ⟨some "ok-cookie",
    fun _ _ => (RunResult.future (FutResult.value (Outcome.success respOk)), ["b=2"])⟩

/-- A 200 response carrying a two-byte sized body and a custom header. -/
def respSized : Response := ⟨Status.okStatus, [("X-Test", "t")], ⟨[104, 105], some 2⟩⟩

/-- A route that succeeds with `respSized`. -/
def routeSized : Route :=
  ⟨some "sized", fun _ _ => (RunResult.future (FutResult.value (Outcome.success respSized)), [])⟩

/-- A GET request with no body-related metadata. -/
def reqGet : Request := ⟨Method.get, none, [], none⟩

/-- A HEAD request with no body-related metadata. -/
def reqHead : Request := ⟨Method.head, none, [], none⟩

/-- A rocket with no routes and a panicking catcher registered for every
status. -/
def rocketPanicCatchers : Rocket where
  router_route := fun _ => []
  router_catch := fun _ _ => some panicCatcher
  default_handler := fun s _ => ⟨s, [], Body.unsized_none⟩
  request_fairings := []
  response_fairings := []
  ident? := none
  alt_svc? := none

/-- A rocket whose router yields a cookie-setting forwarding route and
then an erroring route, with no registered catchers. -/
def rocketCookieErr : Rocket where
  router_route := fun _ => [routeSetCookie, routeErr]
  router_catch := fun _ _ => none
  default_handler := fun s _ => ⟨s, [], Body.unsized_none⟩
  request_fairings := []
  response_fairings := []
  ident? := none
  alt_svc? := none

/-- A rocket whose router yields a cookie-setting forwarding route and
then a cookie-setting succeeding route. -/
def rocketCookieOk : Rocket where
  router_route := fun _ => [routeSetCookie, routeOkCookie]
  router_catch := fun _ _ => none
  default_handler := fun s _ => ⟨s, [], Body.unsized_none⟩
  request_fairings := []
  response_fairings := []
  ident? := none
  alt_svc? := none

/-- A rocket with a single GET-only route producing a sized 200 response,
mirroring a `GET`-only route registered at `/x`. -/
def rocketGetOnly : Rocket where
  router_route := fun r => if r.method = Method.get then [routeSized] else []
  router_catch := fun _ _ => none
  default_handler := fun s _ => ⟨s, [], Body.unsized_none⟩
  request_fairings := []
  response_fairings := []
  ident? := none
  alt_svc? := none

/-- A rocket with no routes, no catchers and no fairings, used to
exercise the finalizer alone. -/
def rocketPlain : Rocket where
  router_route := fun _ => []
  router_catch := fun _ _ => none
  default_handler := fun s _ => ⟨s, [], Body.unsized_none⟩
  request_fairings := []
  response_fairings := []
  ident? := none
  alt_svc? := none

/-- A POST form request, as needed for the `_method` override. -/
def reqPostForm : Request := ⟨Method.post, some ⟨true⟩, [], none⟩

/-- A form body whose first field is not `_method` even though a valid
`_method` field appears later in the peeked prefix. -/
def dataLateMethod : Data := "x=1&_method=PUT".toList

/-- A form body whose first field is a valid `_method` override. -/
def dataFirstMethod : Data := "_method=PUT&x=1".toList

/-- A 204 response carrying a sized body and a custom header, as a route
could return it. -/
def resp204 : Response := ⟨Status.noContent, [("X-A", "b")], ⟨[1, 2, 3], some 3⟩⟩

/-- A 304 response carrying a body of size 4, a custom header, and a
stale `Content-Length` set by the handler. -/
def resp304 : Response :=
  ⟨Status.notModified, [("X-A", "b"), ("Content-Length", "99")], ⟨[1, 2, 3, 4], some 4⟩⟩

/-! General lemmas about the header-list operations. -/

lemma filterMap_filter_of_none {α β : Type} (f : α → Option β) (p : α → Bool)
    (l : List α) (h : ∀ a ∈ l, p a = false → f a = none) :
    (l.filter p).filterMap f = l.filterMap f := by
  induction l with
  | nil => rfl
  | cons a l ih =>
    have ih' := ih (fun x hx => h x (List.mem_cons_of_mem a hx))
    cases hp : p a with
    | true => simp [List.filter_cons, hp, List.filterMap_cons, ih']
    | false =>
      have : f a = none := h a (List.mem_cons_self a l) hp
      simp [List.filter_cons, hp, List.filterMap_cons, this, ih']

lemma headerValues_adjoin (r : Response) (n v m : String) :
    (r.adjoin_header (n, v)).headerValues m
      = r.headerValues m ++ (if n = m then [v] else []) := by
  simp only [Response.adjoin_header, Response.headerValues, List.filterMap_append]
  split <;> simp_all

lemma headerValues_set_header_ne (r : Response) (n v m : String) (hnm : n ≠ m) :
    (r.set_header n v).headerValues m = r.headerValues m := by
  simp only [Response.set_header, Response.headerValues, List.filterMap_append]
  rw [filterMap_filter_of_none]
  · simp [hnm]
  · intro a _ ha
    simp only [Bool.not_eq_false', beq_iff_eq] at ha
    simp [ha, hnm]

lemma headerValues_set_header_self (r : Response) (n v : String) :
    (r.set_header n v).headerValues n = [v] := by
  simp only [Response.set_header, Response.headerValues, List.filterMap_append]
  have : (r.headers.filter (fun h => !(h.1 == n))).filterMap
      (fun h => if h.1 = n then some h.2 else none) = [] := by
    rw [List.filterMap_eq_nil_iff]
    intro a ha
    rcases List.mem_filter.mp ha with ⟨-, hpa⟩
    simp only [Bool.not_eq_true', beq_eq_false_iff_ne, ne_eq] at hpa
    simp [hpa]
  simp [this]

lemma set_header_status (r : Response) (n v : String) :
    (r.set_header n v).status = r.status := rfl

lemma set_header_body (r : Response) (n v : String) :
    (r.set_header n v).body = r.body := rfl

lemma mem_set_header_of_ne (r : Response) (n v : String) (h : Header)
    (hmem : h ∈ r.headers) (hne : h.1 ≠ n) : h ∈ (r.set_header n v).headers := by
  simp only [Response.set_header, List.mem_append]
  exact Or.inl (List.mem_filter.mpr ⟨hmem, by simp [hne]⟩)

lemma cookieFold_eq (delta : List Cookie) (resp : Response) :
    delta.foldl (fun r c => r.adjoin_header ("Set-Cookie", c)) resp
      = { resp with headers := resp.headers ++ delta.map (fun c => ("Set-Cookie", c)) } := by
  induction delta generalizing resp with
  | nil => simp
  | cons c cs ih =>
    rw [List.foldl_cons, ih (resp.adjoin_header ("Set-Cookie", c))]
    simp [Response.adjoin_header, List.append_assoc]

/-! Lemmas about the routing loop. -/

lemma routeLoop_cons (rt : Route) (rest : List Route) (req : Request) (d : Data)
    (s : Status) :
    routeLoop (rt :: rest) req d s =
      match guardedOutcome rt req d with
      | Outcome.success r => (Outcome.success r, afterInvoke rt req d, [rt.name])
      | Outcome.error e => (Outcome.error e, afterInvoke rt req d, [rt.name])
      | Outcome.forward d2 s2 =>
        match routeLoop rest (afterInvoke rt req d) d2 s2 with
        | (o, r3, t) => (o, r3, rt.name :: t) := rfl

lemma routeLoop_cons_success {rt : Route} {rest : List Route} {req : Request}
    {d : Data} {s : Status} {r : Response}
    (h : guardedOutcome rt req d = Outcome.success r) :
    routeLoop (rt :: rest) req d s
      = (Outcome.success r, afterInvoke rt req d, [rt.name]) := by
  rw [routeLoop_cons]
  simp only [h]

lemma routeLoop_cons_error {rt : Route} {rest : List Route} {req : Request}
    {d : Data} {s : Status} {e : Status}
    (h : guardedOutcome rt req d = Outcome.error e) :
    routeLoop (rt :: rest) req d s
      = (Outcome.error e, afterInvoke rt req d, [rt.name]) := by
  rw [routeLoop_cons]
  simp only [h]

lemma routeLoop_cons_forward {rt : Route} {rest : List Route} {req : Request}
    {d : Data} {s : Status} {d2 : Data} {s2 : Status}
    (h : guardedOutcome rt req d = Outcome.forward d2 s2) :
    routeLoop (rt :: rest) req d s
      = ((routeLoop rest (afterInvoke rt req d) d2 s2).1,
         (routeLoop rest (afterInvoke rt req d) d2 s2).2.1,
         rt.name :: (routeLoop rest (afterInvoke rt req d) d2 s2).2.2) := by
  rw [routeLoop_cons]
  simp only [h]

lemma routeLoop_method (routes : List Route) (req : Request) (d : Data) (s : Status) :
    ((routeLoop routes req d s).2.1).method = req.method := by
  induction routes generalizing req d s with
  | nil => rfl
  | cons rt rest ih =>
    cases h : guardedOutcome rt req d with
    | success r => rw [routeLoop_cons_success h]; simp [afterInvoke, Request.set_route]
    | error e => rw [routeLoop_cons_error h]; simp [afterInvoke, Request.set_route]
    | forward d2 s2 =>
      rw [routeLoop_cons_forward h]
      have h2 := ih (afterInvoke rt req d) d2 s2
      simpa [afterInvoke, Request.set_route] using h2

lemma routeLoop_delta_mono (routes : List Route) (req : Request) (d : Data) (s : Status) :
    ∃ added, ((routeLoop routes req d s).2.1).cookieDelta = req.cookieDelta ++ added := by
  induction routes generalizing req d s with
  | nil => exact ⟨[], by simp [routeLoop]⟩
  | cons rt rest ih =>
    cases h : guardedOutcome rt req d with
    | success r =>
      exact ⟨(rt.handler (req.set_route rt.name) d).2,
        by rw [routeLoop_cons_success h]; simp [afterInvoke, Request.set_route]⟩
    | error e =>
      exact ⟨(rt.handler (req.set_route rt.name) d).2,
        by rw [routeLoop_cons_error h]; simp [afterInvoke, Request.set_route]⟩
    | forward d2 s2 =>
      rw [routeLoop_cons_forward h]
      rcases ih (afterInvoke rt req d) d2 s2 with ⟨added, hadded⟩
      refine ⟨(rt.handler (req.set_route rt.name) d).2 ++ added, ?_⟩
      show ((routeLoop rest (afterInvoke rt req d) d2 s2).2.1).cookieDelta
        = req.cookieDelta ++ ((rt.handler (req.set_route rt.name) d).2 ++ added)
      rw [hadded]
      simp [afterInvoke, Request.set_route, List.append_assoc]

lemma routeLoop_trace (routes : List Route) (req : Request) (d : Data) (s : Status) :
    ∃ rem, routes.map Route.name = (routeLoop routes req d s).2.2 ++ rem := by
  induction routes generalizing req d s with
  | nil => exact ⟨[], by simp [routeLoop]⟩
  | cons rt rest ih =>
    cases h : guardedOutcome rt req d with
    | success r =>
      exact ⟨rest.map Route.name, by rw [routeLoop_cons_success h]; simp⟩
    | error e =>
      exact ⟨rest.map Route.name, by rw [routeLoop_cons_error h]; simp⟩
    | forward d2 s2 =>
      rw [routeLoop_cons_forward h]
      rcases ih (afterInvoke rt req d) d2 s2 with ⟨rem, hrem⟩
      exact ⟨rem, by simp [List.map_cons, hrem]⟩

/-- Claim C3: the routing loop starts from the `NotFound` fallback
status; a candidate whose (guarded) outcome is `Success` or `Error` is
returned immediately with no later candidate invoked; a `Forward`
replaces the carried data and fallback status and the loop continues;
exhaustion returns `Forward` with the remaining data and last status; and
the invoked-handler trace is always an in-order prefix of the candidate
list. -/
theorem route_loop_semantics :
    (∀ (R : Rocket) (req : Request) (d : Data),
        R.route req d = routeLoop (R.router_route req) req d Status.notFound)
    ∧ (∀ (req : Request) (d : Data) (s : Status),
        routeLoop [] req d s = (Outcome.forward d s, req, []))
    ∧ (∀ (rt : Route) (rest : List Route) (req : Request) (d : Data) (s : Status)
        (r : Response), guardedOutcome rt req d = Outcome.success r →
        routeLoop (rt :: rest) req d s
          = (Outcome.success r, afterInvoke rt req d, [rt.name]))
    ∧ (∀ (rt : Route) (rest : List Route) (req : Request) (d : Data) (s : Status)
        (e : Status), guardedOutcome rt req d = Outcome.error e →
        routeLoop (rt :: rest) req d s
          = (Outcome.error e, afterInvoke rt req d, [rt.name]))
    ∧ (∀ (rt : Route) (rest : List Route) (req : Request) (d : Data) (s : Status)
        (d2 : Data) (s2 : Status), guardedOutcome rt req d = Outcome.forward d2 s2 →
        routeLoop (rt :: rest) req d s
          = ((routeLoop rest (afterInvoke rt req d) d2 s2).1,
             (routeLoop rest (afterInvoke rt req d) d2 s2).2.1,
             rt.name :: (routeLoop rest (afterInvoke rt req d) d2 s2).2.2))
    ∧ (∀ (routes : List Route) (req : Request) (d : Data) (s : Status),
        ∃ rem, routes.map Route.name = (routeLoop routes req d s).2.2 ++ rem) := by
  refine ⟨fun R req d => rfl, fun req d s => rfl, ?_, ?_, ?_, routeLoop_trace⟩
  · intro rt rest req d s r h
    exact routeLoop_cons_success h
  · intro rt rest req d s e h
    exact routeLoop_cons_error h
  · intro rt rest req d s d2 s2 h
    exact routeLoop_cons_forward h

/-- Witness for C3: a concrete one-route loop whose candidate succeeds is
returned immediately with only that handler invoked. -/
theorem route_loop_semantics_witness :
    routeLoop [routeOk] reqGet [] Status.notFound
      = (Outcome.success respOk, afterInvoke routeOk reqGet [], [some "ok"]) :=
  route_loop_semantics.2.2.1 routeOk [] reqGet [] Status.notFound respOk rfl

/-- Claim C5: an abnormal handler termination, whether synchronous during
future construction or during awaited execution, is converted by
`catch_handle` into `none` instead of propagating, and the routing loop
maps such a handler invocation to an immediate
`Outcome::Error(InternalServerError)`. -/
theorem panic_containment :
    (∀ (T : Type), catch_handle (RunResult.panicSetup : RunResult T) = none)
    ∧ (∀ (T : Type),
        catch_handle (RunResult.future (FutResult.panicAwait : FutResult T)) = none)
    ∧ (∀ (rt : Route) (rest : List Route) (req : Request) (d : Data) (s : Status),
        ((rt.handler (req.set_route rt.name) d).1).isPanic = true →
        routeLoop (rt :: rest) req d s
          = (Outcome.error Status.internalServerError, afterInvoke rt req d, [rt.name])) := by
  refine ⟨fun T => rfl, fun T => rfl, ?_⟩
  intro rt rest req d s h
  have hg : guardedOutcome rt req d = Outcome.error Status.internalServerError := by
    unfold guardedOutcome
    cases hrun : (rt.handler (req.set_route rt.name) d).1 with
    | panicSetup => rfl
    | future f =>
      cases f with
      | panicAwait => rfl
      | value t => rw [hrun] at h; simp [RunResult.isPanic] at h
  rw [routeLoop_cons, hg]

/-- Witness for C5: a concrete always-panicking route yields an immediate
500 error outcome from the routing loop. -/
theorem panic_containment_witness :
    routeLoop [panicRoute] reqGet [] Status.notFound
      = (Outcome.error Status.internalServerError, afterInvoke panicRoute reqGet [],
         [some "boom"]) :=
  panic_containment.2.2 panicRoute [] reqGet [] Status.notFound rfl

/-! Lemmas about catcher invocation and the escalation loop. -/

lemma invoke_catcher_count (R : Rocket) (s : Status) (req : Request) :
    (R.invoke_catcher s req).2.2 <= 1 := by
  unfold Rocket.invoke_catcher
  cases h : R.router_catch s req <;> simp

lemma catcher_loop_count_500 (R : Rocket) (req : Request) :
    (R.catcher_loop Status.internalServerError req).2.2 <= 1 := by
  rw [Rocket.catcher_loop]
  rcases h : R.invoke_catcher Status.internalServerError req with ⟨res, req1, n⟩
  have hn : n <= 1 := by
    have := invoke_catcher_count R Status.internalServerError req
    rw [h] at this
    exact this
  cases res with
  | ok r => simpa using hn
  | error e => simp [Status.internalServerError, hn]

lemma catcher_loop_count (R : Rocket) (s : Status) (req : Request) :
    (R.catcher_loop s req).2.2 <= 2 := by
  rw [Rocket.catcher_loop]
  rcases h : R.invoke_catcher s req with ⟨res, req1, n⟩
  have hn : n <= 1 := by
    have := invoke_catcher_count R s req
    rw [h] at this
    exact this
  cases res with
  | ok r => simpa using hn.trans (by norm_num)
  | error e =>
    by_cases h500 : s.code = 500
    · simp [h500]
      exact hn.trans (by norm_num)
    · simp only [h500, dif_neg, not_false_iff]
      rcases h2 : R.catcher_loop Status.internalServerError req1 with ⟨r2, req2, m⟩
      have hm : m <= 1 := by
        have := catcher_loop_count_500 R req1
        rw [h2] at this
        exact this
      simpa using Nat.add_le_add hn hm

lemma catch_handle_isPanic {T : Type} {fr : RunResult T} (h : fr.isPanic = true) :
    catch_handle fr = none := by
  cases fr with
  | panicSetup => rfl
  | future f =>
    cases f with
    | panicAwait => rfl
    | value t => simp [RunResult.isPanic] at h

lemma invoke_catcher_panic {R : Rocket} {s : Status} {req : Request} {c : Catcher}
    (hc : R.router_catch s req = some c) (hp : c.alwaysPanics) :
    R.invoke_catcher s req
      = (Except.error none,
         { req with cookieDelta := req.cookieDelta ++ (c.handler s req).2 }, 1) := by
  simp [Rocket.invoke_catcher, hc, catch_handle_isPanic (hp s req)]

/-- Claim C2: the catcher escalation loop invokes at most two catcher
handlers before falling back to the infallible built-in default; and in
the scenario where the registered catcher for 404 always panics (and so
does the registered 500 catcher it escalates to), a `dispatch_error` for
404 performs exactly two catcher invocations and the built-in default
handler produces the final response. -/
theorem dispatch_error_catcher_bound (R : Rocket) (s : Status) (req : Request) :
    (R.dispatch_error s req).2.2 <= 2
    ∧ ((∀ r, ∃ c, R.router_catch Status.notFound r = some c ∧ c.alwaysPanics) →
       (∀ r, ∃ c, R.router_catch Status.internalServerError r = some c ∧ c.alwaysPanics) →
       s = Status.notFound →
       (R.dispatch_error s req).2.2 = 2
       ∧ ∃ req2, (R.dispatch_error s req).1
           = R.default_handler Status.internalServerError req2) := by
  constructor
  · exact catcher_loop_count R s req.reset_delta
  · intro h404 h500 hs
    subst hs
    obtain ⟨c1, hc1, hp1⟩ := h404 req.reset_delta
    have hi1 := invoke_catcher_panic hc1 hp1
    set req1 : Request :=
      { req.reset_delta with
        cookieDelta :=
          req.reset_delta.cookieDelta ++ (c1.handler Status.notFound req.reset_delta).2 }
      with hreq1
    obtain ⟨c2, hc2, hp2⟩ := h500 req1
    have hi2 := invoke_catcher_panic hc2 hp2
    set req2 : Request :=
      { req1 with
        cookieDelta := req1.cookieDelta ++ (c2.handler Status.internalServerError req1).2 }
      with hreq2
    have hloop : R.dispatch_error Status.notFound req
        = (R.default_handler Status.internalServerError req2, req2, 2) := by
      show R.catcher_loop Status.notFound req.reset_delta
        = (R.default_handler Status.internalServerError req2, req2, 2)
      rw [Rocket.catcher_loop, hi1]
      have h404ne : ¬(Status.notFound.code = 500) := by simp [Status.notFound]
      simp only [h404ne, dite_false]
      rw [Rocket.catcher_loop, hi2]
      simp [Status.internalServerError]
    rw [hloop]
    exact ⟨rfl, req2, rfl⟩

/-- Witness for C2: with a concrete always-panicking catcher registered
for every status, `dispatch_error` for 404 performs exactly two catcher
invocations and returns the built-in default handler's response. -/
theorem dispatch_error_catcher_bound_witness :
    (rocketPanicCatchers.dispatch_error Status.notFound reqGet).2.2 = 2
    ∧ ∃ req2, (rocketPanicCatchers.dispatch_error Status.notFound reqGet).1
        = rocketPanicCatchers.default_handler Status.internalServerError req2 :=
  (dispatch_error_catcher_bound rocketPanicCatchers Status.notFound reqGet).2
    (fun _ => ⟨panicCatcher, rfl, fun _ _ => rfl⟩)
    (fun _ => ⟨panicCatcher, rfl, fun _ _ => rfl⟩)
    rfl

/-- Claim C1: dispatch is total — for every rocket configuration
(including empty route and catcher tables and handlers that panic at
either stage) and every request, `dispatch` returns a response, and that
response is always the finalization of either a successful routing
outcome or of a catcher-escalation result; nothing else can escape. -/
theorem dispatch_total (R : Rocket) (t : RequestToken) (req : Request) (d : Data) :
    ∃ (resp0 : Response) (reqX : Request),
      R.dispatch t req d = R.finalize (decide (req.method = Method.head)) reqX resp0
      ∧ ((∃ (req2 : Request) (d2 : Data) (tr : List (Option String)),
            R.route req2 d2 = (Outcome.success resp0, reqX, tr))
         ∨ (∃ (s : Status) (req2 : Request),
            (R.dispatch_error s req2).1 = resp0
            ∧ (R.dispatch_error s req2).2.1 = reqX)) := by
  simp only [Rocket.dispatch]
  rcases h1 : R.route req d with ⟨o1, reqA, t1⟩
  cases o1 with
  | success r =>
    exact ⟨r, reqA, rfl, Or.inl ⟨req, d, t1, h1⟩⟩
  | error s =>
    exact ⟨(R.dispatch_error s reqA).1, (R.dispatch_error s reqA).2.1, rfl,
      Or.inr ⟨s, reqA, rfl, rfl⟩⟩
  | forward fd fs =>
    dsimp only
    by_cases hm : reqA.method = Method.head
    · rw [if_pos hm]
      rcases h2 : R.route (reqA.set_method Method.get) fd with ⟨o2, reqC, t2⟩
      cases o2 with
      | success r =>
        exact ⟨r, reqC, rfl, Or.inl ⟨reqA.set_method Method.get, fd, t2, h2⟩⟩
      | error s =>
        exact ⟨(R.dispatch_error s reqC).1, (R.dispatch_error s reqC).2.1, rfl,
          Or.inr ⟨s, reqC, rfl, rfl⟩⟩
      | forward fd2 fs2 =>
        exact ⟨(R.dispatch_error fs2 reqC).1, (R.dispatch_error fs2 reqC).2.1, rfl,
          Or.inr ⟨fs2, reqC, rfl, rfl⟩⟩
    · rw [if_neg hm]
      exact ⟨(R.dispatch_error fs reqA).1, (R.dispatch_error fs reqA).2.1, rfl,
        Or.inr ⟨fs, reqA, rfl, rfl⟩⟩

/-! Lemmas about the finalization steps. -/

lemma cookieStep_eq (req : Request) (resp : Response) :
    cookieStep req resp
      = { resp with
          headers := resp.headers ++ req.cookieDelta.map (fun c => ("Set-Cookie", c)) } :=
  cookieFold_eq _ _

lemma cookieStep_status (req : Request) (resp : Response) :
    (cookieStep req resp).status = resp.status := by rw [cookieStep_eq]

lemma cookieStep_body (req : Request) (resp : Response) :
    (cookieStep req resp).body = resp.body := by rw [cookieStep_eq]

lemma cookieStep_setCookieValues (req : Request) (resp : Response) :
    (cookieStep req resp).headerValues "Set-Cookie"
      = resp.headerValues "Set-Cookie" ++ req.cookieDelta := by
  rw [cookieStep_eq]
  simp only [Response.headerValues, List.filterMap_append, List.filterMap_map]
  congr 1
  have hfn : ((fun h : Header => if h.1 = "Set-Cookie" then some h.2 else none)
      ∘ (fun c : Cookie => (("Set-Cookie" : String), c)))
        = fun c : Cookie => some c := by
    funext c
    simp
  rw [hfn, List.filterMap_some]

lemma cookieStep_headerValues_ne (req : Request) (resp : Response) (n : String)
    (hn : n ≠ "Set-Cookie") :
    (cookieStep req resp).headerValues n = resp.headerValues n := by
  rw [cookieStep_eq]
  simp [Response.headerValues, List.filterMap_append, List.filterMap_map, Function.comp,
    Ne.symm hn]

lemma cookieStep_mem (req : Request) (resp : Response) (h : Header)
    (hmem : h ∈ resp.headers) : h ∈ (cookieStep req resp).headers := by
  rw [cookieStep_eq]
  exact List.mem_append_left _ hmem

lemma serverStep_status (R : Rocket) (resp : Response) :
    (serverStep R resp).status = resp.status := by
  unfold serverStep
  cases R.ident? with
  | none => rfl
  | some i => dsimp only; split <;> rfl

lemma serverStep_body (R : Rocket) (resp : Response) :
    (serverStep R resp).body = resp.body := by
  unfold serverStep
  cases R.ident? with
  | none => rfl
  | some i => dsimp only; split <;> rfl

lemma serverStep_headerValues_ne (R : Rocket) (resp : Response) (n : String)
    (hn : n ≠ "Server") :
    (serverStep R resp).headerValues n = resp.headerValues n := by
  unfold serverStep
  cases R.ident? with
  | none => rfl
  | some i =>
    dsimp only
    split
    · rfl
    · exact headerValues_set_header_ne resp "Server" i n (Ne.symm hn)

lemma serverStep_mem (R : Rocket) (resp : Response) (h : Header)
    (hmem : h ∈ resp.headers) : h ∈ (serverStep R resp).headers := by
  unfold serverStep
  cases R.ident? with
  | none => exact hmem
  | some i =>
    dsimp only
    split
    · exact hmem
    · next hc =>
      refine mem_set_header_of_ne resp "Server" i h hmem ?_
      intro hname
      apply hc
      simp only [Response.contains, List.any_eq_true]
      exact ⟨h, hmem, by simp [hname]⟩

lemma fairingStep_nil (R : Rocket) (req : Request) (resp : Response)
    (hf : R.response_fairings = []) : fairingStep R req resp = resp := by
  simp [fairingStep, hf]

lemma stripStep_status (w : Bool) (resp : Response) :
    (stripStep w resp).status = resp.status := by
  unfold stripStep; split <;> rfl

lemma stripStep_headers (w : Bool) (resp : Response) :
    (stripStep w resp).headers = resp.headers := by
  unfold stripStep; split <;> rfl

lemma stripStep_headerValues (w : Bool) (resp : Response) (n : String) :
    (stripStep w resp).headerValues n = resp.headerValues n := by
  unfold Response.headerValues
  rw [stripStep_headers]

lemma stripStep_size (w : Bool) (resp : Response) :
    (stripStep w resp).body.size? = resp.body.size? := by
  unfold stripStep; split <;> rfl

lemma stripStep_bytes (w : Bool) (resp : Response)
    (h : w = true ∨ resp.status = Status.notModified) :
    (stripStep w resp).body.bytes = [] := by
  unfold stripStep
  rcases h with h | h
  · simp [h, Response.strip_body, Body.strip]
  · simp [h, Response.strip_body, Body.strip]

lemma sizeStep_status (resp : Response) : (sizeStep resp).status = resp.status := by
  unfold sizeStep
  split
  · rfl
  · split <;> rfl

lemma sizeStep_204 (resp : Response) (h : resp.status = Status.noContent) :
    sizeStep resp = { resp with body := Body.unsized_none } := by
  unfold sizeStep
  rw [if_pos h]

lemma sizeStep_sized (resp : Response) (sz : Nat)
    (h204 : ¬ resp.status = Status.noContent) (hs : resp.body.size? = some sz) :
    sizeStep resp = resp.set_raw_header "Content-Length" (toString sz) := by
  unfold sizeStep
  rw [if_neg h204]
  simp [Body.size, hs]

lemma sizeStep_headerValues_ne (resp : Response) (n : String)
    (hn : n ≠ "Content-Length") :
    (sizeStep resp).headerValues n = resp.headerValues n := by
  unfold sizeStep
  split
  · rfl
  · split
    · exact headerValues_set_header_ne resp "Content-Length" _ n (Ne.symm hn)
    · rfl

lemma sizeStep_bytes (resp : Response) :
    (sizeStep resp).body.bytes
      = if resp.status = Status.noContent then [] else resp.body.bytes := by
  unfold sizeStep
  split
  · next h => simp [h, Body.unsized_none]
  · next h =>
    split <;> rfl

lemma sizeStep_bytes_aux (resp : Response) (h : ¬ resp.status = Status.noContent) :
    (sizeStep resp).body.bytes = resp.body.bytes := by
  unfold sizeStep
  rw [if_neg h]
  split <;> rfl

lemma sizeStep_mem (resp : Response) (h : Header) (hmem : h ∈ resp.headers)
    (hn : h.1 ≠ "Content-Length") : h ∈ (sizeStep resp).headers := by
  unfold sizeStep
  split
  · exact hmem
  · split
    · exact List.mem_append_left _ (List.mem_filter.mpr ⟨hmem, by simp [hn]⟩)
    · exact hmem

lemma altSvcStep_status (R : Rocket) (resp : Response) :
    (altSvcStep R resp).status = resp.status := by
  unfold altSvcStep
  cases R.alt_svc? with
  | none => rfl
  | some a => rfl

lemma altSvcStep_body (R : Rocket) (resp : Response) :
    (altSvcStep R resp).body = resp.body := by
  unfold altSvcStep
  cases R.alt_svc? with
  | none => rfl
  | some a => rfl

lemma altSvcStep_headerValues_ne (R : Rocket) (resp : Response) (n : String)
    (hn : n ≠ "Alt-Svc") :
    (altSvcStep R resp).headerValues n = resp.headerValues n := by
  unfold altSvcStep
  cases R.alt_svc? with
  | none => rfl
  | some a => exact headerValues_set_header_ne resp "Alt-Svc" a n (Ne.symm hn)

lemma altSvcStep_none (R : Rocket) (resp : Response) (h : R.alt_svc? = none) :
    altSvcStep R resp = resp := by
  unfold altSvcStep
  rw [h]

lemma finalize_fst (R : Rocket) (w : Bool) (req : Request) (resp : Response) :
    (R.finalize w req resp).1
      = altSvcStep R (sizeStep (stripStep w
          (fairingStep R { req with cookieDelta := [] }
            (serverStep R (cookieStep req resp))))) := rfl

lemma finalize_snd (R : Rocket) (w : Bool) (req : Request) (resp : Response) :
    (R.finalize w req resp).2 = { req with cookieDelta := [] } := rfl

/-! Composite lemmas about the whole finalizer, for an empty response
fairing pipeline. -/

lemma finalize_status (R : Rocket) (w : Bool) (req : Request) (resp : Response)
    (hf : R.response_fairings = []) :
    ((R.finalize w req resp).1).status = resp.status := by
  rw [finalize_fst, altSvcStep_status, sizeStep_status, stripStep_status,
    fairingStep_nil _ _ _ hf, serverStep_status, cookieStep_status]

lemma finalize_setCookies (R : Rocket) (w : Bool) (req : Request) (resp : Response)
    (hf : R.response_fairings = []) :
    ((R.finalize w req resp).1).headerValues "Set-Cookie"
      = resp.headerValues "Set-Cookie" ++ req.cookieDelta := by
  rw [finalize_fst, altSvcStep_headerValues_ne _ _ _ (by decide),
    sizeStep_headerValues_ne _ _ (by decide), stripStep_headerValues,
    fairingStep_nil _ _ _ hf, serverStep_headerValues_ne _ _ _ (by decide),
    cookieStep_setCookieValues]

lemma finalize_cl_sized (R : Rocket) (w : Bool) (req : Request) (resp : Response)
    (sz : Nat) (hf : R.response_fairings = [])
    (h204 : ¬ resp.status = Status.noContent) (hs : resp.body.size? = some sz) :
    ((R.finalize w req resp).1).headerValues "Content-Length" = [toString sz] := by
  rw [finalize_fst, altSvcStep_headerValues_ne _ _ _ (by decide),
    fairingStep_nil _ _ _ hf]
  rw [sizeStep_sized _ sz ?h1 ?h2]
  · exact headerValues_set_header_self _ "Content-Length" (toString sz)
  case h1 =>
    rw [stripStep_status, serverStep_status, cookieStep_status]
    exact h204
  case h2 =>
    rw [stripStep_size]
    have hb : (serverStep R (cookieStep req resp)).body = resp.body := by
      rw [serverStep_body, cookieStep_body]
    rw [hb]
    exact hs

lemma finalize_204 (R : Rocket) (w : Bool) (req : Request) (resp : Response)
    (hf : R.response_fairings = []) (h : resp.status = Status.noContent)
    (hcl : resp.headerValues "Content-Length" = []) :
    ((R.finalize w req resp).1).body = Body.unsized_none
    ∧ ((R.finalize w req resp).1).headerValues "Content-Length" = [] := by
  rw [finalize_fst, fairingStep_nil _ _ _ hf]
  have hst : (stripStep w (serverStep R (cookieStep req resp))).status = Status.noContent := by
    rw [stripStep_status, serverStep_status, cookieStep_status]
    exact h
  rw [sizeStep_204 _ hst]
  constructor
  · rw [altSvcStep_body]
  · rw [altSvcStep_headerValues_ne _ _ _ (by decide)]
    show (stripStep w (serverStep R (cookieStep req resp))).headerValues "Content-Length" = []
    rw [stripStep_headerValues, serverStep_headerValues_ne _ _ _ (by decide),
      cookieStep_headerValues_ne _ _ _ (by decide)]
    exact hcl

lemma finalize_bytes_strip (R : Rocket) (w : Bool) (req : Request) (resp : Response)
    (hf : R.response_fairings = [])
    (h : w = true ∨ resp.status = Status.notModified) :
    ((R.finalize w req resp).1).body.bytes = [] := by
  rw [finalize_fst, altSvcStep_body, fairingStep_nil _ _ _ hf, sizeStep_bytes]
  split
  · rfl
  · apply stripStep_bytes
    rcases h with h | h
    · exact Or.inl h
    · exact Or.inr (by rw [serverStep_status, cookieStep_status]; exact h)

lemma finalize_mem_preserved (R : Rocket) (w : Bool) (req : Request) (resp : Response)
    (hf : R.response_fairings = []) (halt : R.alt_svc? = none) (h : Header)
    (hmem : h ∈ resp.headers) (hn : h.1 ≠ "Content-Length") :
    h ∈ ((R.finalize w req resp).1).headers := by
  rw [finalize_fst, altSvcStep_none _ _ halt, fairingStep_nil _ _ _ hf]
  apply sizeStep_mem _ _ _ hn
  rw [stripStep_headers]
  exact serverStep_mem _ _ _ (cookieStep_mem _ _ _ hmem)

lemma route_method (R : Rocket) (req : Request) (d : Data) :
    ((R.route req d).2.1).method = req.method :=
  routeLoop_method (R.router_route req) req d Status.notFound

lemma invoke_catcher_delta (R : Rocket) (st : Status) (r : Request)
    (hno : ∀ (st1 : Status) (r1 : Request) (c : Catcher), R.router_catch st1 r1 = some c →
      ∀ (st2 : Status) (r2 : Request), (c.handler st2 r2).2 = []) :
    ((R.invoke_catcher st r).2.1).cookieDelta = r.cookieDelta := by
  unfold Rocket.invoke_catcher
  cases hc : R.router_catch st r with
  | none => simp
  | some c => simp [hno st r c hc st r]

lemma catcher_loop_delta_500 (R : Rocket) (r : Request)
    (hno : ∀ (st1 : Status) (r1 : Request) (c : Catcher), R.router_catch st1 r1 = some c →
      ∀ (st2 : Status) (r2 : Request), (c.handler st2 r2).2 = []) :
    ((R.catcher_loop Status.internalServerError r).2.1).cookieDelta = r.cookieDelta := by
  rw [Rocket.catcher_loop]
  rcases hi : R.invoke_catcher Status.internalServerError r with ⟨res, r1, n⟩
  have hd : r1.cookieDelta = r.cookieDelta := by
    have := invoke_catcher_delta R Status.internalServerError r hno
    rw [hi] at this
    exact this
  cases res with
  | ok resp => simpa using hd
  | error e => simp [Status.internalServerError, hd]

lemma catcher_loop_delta (R : Rocket) (st : Status) (r : Request)
    (hno : ∀ (st1 : Status) (r1 : Request) (c : Catcher), R.router_catch st1 r1 = some c →
      ∀ (st2 : Status) (r2 : Request), (c.handler st2 r2).2 = []) :
    ((R.catcher_loop st r).2.1).cookieDelta = r.cookieDelta := by
  rw [Rocket.catcher_loop]
  rcases hi : R.invoke_catcher st r with ⟨res, r1, n⟩
  have hd : r1.cookieDelta = r.cookieDelta := by
    have := invoke_catcher_delta R st r hno
    rw [hi] at this
    exact this
  cases res with
  | ok resp => simpa using hd
  | error e =>
    by_cases h500 : st.code = 500
    · simp [h500, hd]
    · simp only [h500, dite_false, not_false_iff]
      rcases h2 : R.catcher_loop Status.internalServerError r1 with ⟨r2, req2, m⟩
      have := catcher_loop_delta_500 R r1 hno
      rw [h2] at this
      exact this.trans hd

/-- Claim C6: the error path's cookie isolation — `dispatch_error` resets
the delta jar before any catcher runs, so its result does not depend on
the cookies accumulated by failed routes; when routing ends in an error,
the final response's `Set-Cookie` headers are exactly the error
response's own plus the delta accumulated during escalation; and if no
catcher adds cookies, that delta is empty. -/
theorem cookie_isolation_error_path :
    (∀ (R : Rocket) (s : Status) (req : Request),
        R.dispatch_error s req = R.dispatch_error s { req with cookieDelta := [] })
    ∧ (∀ (R : Rocket) (t : RequestToken) (req : Request) (d : Data) (s : Status),
        ((R.route req d).1 = Outcome.error s
          ∨ ((∃ fd, (R.route req d).1 = Outcome.forward fd s)
              ∧ ¬ req.method = Method.head)) →
        R.response_fairings = [] →
        ((R.dispatch t req d).1).headerValues "Set-Cookie"
          = ((R.dispatch_error s (R.route req d).2.1).1).headerValues "Set-Cookie"
            ++ ((R.dispatch_error s (R.route req d).2.1).2.1).cookieDelta)
    ∧ (∀ (R : Rocket) (s : Status) (req : Request),
        (∀ (st1 : Status) (r1 : Request) (c : Catcher), R.router_catch st1 r1 = some c →
          ∀ (st2 : Status) (r2 : Request), (c.handler st2 r2).2 = []) →
        ((R.dispatch_error s req).2.1).cookieDelta = []) := by
  refine ⟨fun R s req => rfl, ?_, ?_⟩
  · intro R t req d s hcase hf
    simp only [Rocket.dispatch]
    rcases h1 : R.route req d with ⟨o1, reqA, t1⟩
    rw [h1] at hcase
    rcases hcase with hcase | ⟨⟨fd, hfw⟩, hm⟩
    · simp only at hcase
      subst hcase
      exact finalize_setCookies R _ _ _ hf
    · simp only at hfw
      subst hfw
      dsimp only
      have hmA : ¬ reqA.method = Method.head := by
        have := route_method R req d
        rw [h1] at this
        simp only at this
        rw [this]
        exact hm
      rw [if_neg hmA]
      exact finalize_setCookies R _ _ _ hf
  · intro R s req hno
    exact catcher_loop_delta R s req.reset_delta hno

/-- Witness for C6: a route sets cookie `a=1` and forwards, a later route
errors with 400, and no catcher is registered; the final error response's
`Set-Cookie` headers are those of the escalation result, which are none —
`a=1` is absent. -/
theorem cookie_isolation_error_path_witness :
    ((rocketCookieErr.dispatch ⟨⟩ reqGet []).1).headerValues "Set-Cookie"
      = ((rocketCookieErr.dispatch_error ⟨400⟩ (rocketCookieErr.route reqGet []).2.1).1).headerValues
          "Set-Cookie"
        ++ ((rocketCookieErr.dispatch_error ⟨400⟩
              (rocketCookieErr.route reqGet []).2.1).2.1).cookieDelta :=
  cookie_isolation_error_path.2.1 rocketCookieErr ⟨⟩ reqGet [] ⟨400⟩ (Or.inl rfl) rfl

/-- Claim C7: if the final response status is 204, the finalizer clears
the body and its size indicator and emits no `Content-Length` header;
for any other status whose body reports a known size, `Content-Length` is
set to exactly that size. -/
theorem no_content_finalization (R : Rocket) (w : Bool) (req : Request)
    (resp : Response) (hf : R.response_fairings = []) :
    (resp.status = Status.noContent → resp.headerValues "Content-Length" = [] →
      ((R.finalize w req resp).1).body = Body.unsized_none
      ∧ ((R.finalize w req resp).1).headerValues "Content-Length" = [])
    ∧ (∀ sz : Nat, ¬ resp.status = Status.noContent → resp.body.size? = some sz →
        ((R.finalize w req resp).1).headerValues "Content-Length" = [toString sz]) := by
  constructor
  · intro h hcl
    exact finalize_204 R w req resp hf h hcl
  · intro sz h204 hs
    exact finalize_cl_sized R w req resp sz hf h204 hs

/-- Witness for C7: a concrete 204 response with a sized body loses both
body and size, and no `Content-Length` header is emitted. -/
theorem no_content_finalization_witness :
    ((rocketPlain.finalize false reqGet resp204).1).body = Body.unsized_none
    ∧ ((rocketPlain.finalize false reqGet resp204).1).headerValues "Content-Length" = [] :=
  (no_content_finalization rocketPlain false reqGet resp204 rfl).1 rfl (by decide)

/-- Claim C8: a 304 response keeps its status, its body is stripped to
empty, every handler-set header other than `Content-Length` is preserved,
and a known body size still produces a `Content-Length` equal to the
original body's size. -/
theorem not_modified_finalization (R : Rocket) (w : Bool) (req : Request)
    (resp : Response) (hf : R.response_fairings = []) (halt : R.alt_svc? = none)
    (hst : resp.status = Status.notModified) :
    ((R.finalize w req resp).1).status = Status.notModified
    ∧ ((R.finalize w req resp).1).body.bytes = []
    ∧ (∀ h ∈ resp.headers, h.1 ≠ "Content-Length" →
        h ∈ ((R.finalize w req resp).1).headers)
    ∧ (∀ sz : Nat, resp.body.size? = some sz →
        ((R.finalize w req resp).1).headerValues "Content-Length" = [toString sz]) := by
  refine ⟨?_, ?_, ?_, ?_⟩
  · rw [finalize_status R w req resp hf, hst]
  · exact finalize_bytes_strip R w req resp hf (Or.inr hst)
  · intro h hmem hn
    exact finalize_mem_preserved R w req resp hf halt h hmem hn
  · intro sz hs
    refine finalize_cl_sized R w req resp sz hf ?_ hs
    rw [hst]
    decide

/-- Witness for C8: a concrete 304 response with body size 4 and headers
`X-A` and a stale `Content-Length` keeps its status and `X-A`, loses its
body, and gets `Content-Length: 4`. -/
theorem not_modified_finalization_witness :
    ((rocketPlain.finalize false reqGet resp304).1).status = Status.notModified
    ∧ ((rocketPlain.finalize false reqGet resp304).1).body.bytes = []
    ∧ (∀ h ∈ resp304.headers, h.1 ≠ "Content-Length" →
        h ∈ ((rocketPlain.finalize false reqGet resp304).1).headers)
    ∧ (∀ sz : Nat, resp304.body.size? = some sz →
        ((rocketPlain.finalize false reqGet resp304).1).headerValues "Content-Length"
          = [toString sz]) :=
  not_modified_finalization rocketPlain false reqGet resp304 rfl rfl rfl

/-- Claim C10: on the success path the delta jar is never reset — the
loop only ever appends to it — so the final successful response's
`Set-Cookie` headers merge the cookies set by every route that ran,
forwarding routes included, with those of the succeeding route. -/
theorem success_path_cookie_merge :
    (∀ (routes : List Route) (req : Request) (d : Data) (s : Status),
        ∃ added, ((routeLoop routes req d s).2.1).cookieDelta = req.cookieDelta ++ added)
    ∧ (∀ (R : Rocket) (t : RequestToken) (req : Request) (d : Data) (r : Response)
        (reqA : Request) (trA : List (Option String)),
        R.route req d = (Outcome.success r, reqA, trA) →
        R.response_fairings = [] →
        ((R.dispatch t req d).1).headerValues "Set-Cookie"
          = r.headerValues "Set-Cookie" ++ reqA.cookieDelta) := by
  constructor
  · exact routeLoop_delta_mono
  · intro R t req d r reqA trA h1 hf
    simp only [Rocket.dispatch]
    rw [h1]
    exact finalize_setCookies R _ reqA r hf

/-- Witness for C10: route `sets-cookie` adds `a=1` and forwards, route
`ok-cookie` adds `b=2` and succeeds; the final response carries both
cookies, in order. -/
theorem success_path_cookie_merge_witness :
    ((rocketCookieOk.dispatch ⟨⟩ reqGet []).1).headerValues "Set-Cookie" = ["a=1", "b=2"] :=
  (success_path_cookie_merge.2 rocketCookieOk ⟨⟩ reqGet [] respOk
      ((rocketCookieOk.route reqGet []).2.1) ((rocketCookieOk.route reqGet []).2.2)
      rfl rfl).trans (by decide)

/-- Claim C4: HEAD auto-fallback — when the first routing pass of a HEAD
request forwards, the method is rewritten to GET in place and routing is
retried exactly once: a GET-only route answers `HEAD` with status 200, an
empty body, and a `Content-Length` equal to what the GET response
produces; and if the retry also forwards, its fallback status goes
straight to the catcher escalation with no third routing pass. -/
theorem head_auto_fallback :
    (∀ (R : Rocket) (t : RequestToken) (req : Request) (d : Data) (rt : Route)
        (resp0 : Response) (sz : Nat),
      req.method = Method.head →
      (∀ r : Request, R.router_route r = if r.method = Method.get then [rt] else []) →
      (∀ (r : Request) (dd : Data),
        rt.handler r dd
          = (RunResult.future (FutResult.value (Outcome.success resp0)), [])) →
      resp0.status = Status.okStatus →
      resp0.body.size? = some sz →
      R.response_fairings = [] →
      ((R.dispatch t req d).1).status = Status.okStatus
      ∧ ((R.dispatch t req d).1).body.bytes = []
      ∧ ((R.dispatch t req d).1).headerValues "Content-Length" = [toString sz]
      ∧ ((R.dispatch t (req.set_method Method.get) d).1).headerValues "Content-Length"
          = [toString sz])
    ∧ (∀ (R : Rocket) (t : RequestToken) (req : Request) (d fd : Data) (fs : Status)
        (reqA : Request) (trA : List (Option String)) (fd2 : Data) (fs2 : Status)
        (reqC : Request) (trC : List (Option String)),
      req.method = Method.head →
      R.route req d = (Outcome.forward fd fs, reqA, trA) →
      R.route (reqA.set_method Method.get) fd = (Outcome.forward fd2 fs2, reqC, trC) →
      R.dispatch t req d
        = R.finalize true (R.dispatch_error fs2 reqC).2.1 (R.dispatch_error fs2 reqC).1) := by
  constructor
  · intro R t req d rt resp0 sz hm hrouter hhandler hstatus hsz hf
    have hw : decide (req.method = Method.head) = true := by simp [hm]
    have hroute1 : R.route req d = (Outcome.forward d Status.notFound, req, []) := by
      unfold Rocket.route
      rw [hrouter req, hm]
      simp [routeLoop]
    have hrouteG : ∀ (rq : Request) (dd : Data), rq.method = Method.get →
        R.route rq dd = (Outcome.success resp0, afterInvoke rt rq dd, [rt.name]) := by
      intro rq dd hg
      have hgo : guardedOutcome rt rq dd = Outcome.success resp0 := by
        unfold guardedOutcome
        rw [hhandler]
        rfl
      unfold Rocket.route
      rw [hrouter rq, hg]
      simp only [if_pos rfl]
      exact routeLoop_cons_success hgo
    have hdisp : R.dispatch t req d
        = R.finalize true (afterInvoke rt (req.set_method Method.get) d) resp0 := by
      simp only [Rocket.dispatch]
      rw [hroute1]
      dsimp only
      rw [if_pos hm, hrouteG (req.set_method Method.get) d rfl]
      dsimp only
      rw [hw]
    have hdispG : R.dispatch t (req.set_method Method.get) d
        = R.finalize false (afterInvoke rt (req.set_method Method.get) d) resp0 := by
      simp only [Rocket.dispatch]
      rw [hrouteG (req.set_method Method.get) d rfl]
      dsimp only
      rw [show decide ((req.set_method Method.get).method = Method.head) = false from by
        simp [Request.set_method]]
    refine ⟨?_, ?_, ?_, ?_⟩
    · rw [hdisp, finalize_status _ _ _ _ hf, hstatus]
    · rw [hdisp]
      exact finalize_bytes_strip _ _ _ _ hf (Or.inl rfl)
    · rw [hdisp]
      exact finalize_cl_sized _ _ _ _ sz hf (by rw [hstatus]; decide) hsz
    · rw [hdispG]
      exact finalize_cl_sized _ _ _ _ sz hf (by rw [hstatus]; decide) hsz
  · intro R t req d fd fs reqA trA fd2 fs2 reqC trC hm h1 h2
    have hmA : reqA.method = Method.head := by
      have hme := route_method R req d
      rw [h1] at hme
      simp only at hme
      rw [hme]
      exact hm
    have hw : decide (req.method = Method.head) = true := by simp [hm]
    simp only [Rocket.dispatch]
    rw [h1]
    dsimp only
    rw [if_pos hmA, h2]
    dsimp only
    rw [hw]

/-- Witness for C4: the GET-only rocket answers a concrete HEAD request
with 200, an empty body, and `Content-Length: 2`, the same value the GET
dispatch produces. -/
theorem head_auto_fallback_witness :
    ((rocketGetOnly.dispatch ⟨⟩ reqHead []).1).status = Status.okStatus
    ∧ ((rocketGetOnly.dispatch ⟨⟩ reqHead []).1).body.bytes = []
    ∧ ((rocketGetOnly.dispatch ⟨⟩ reqHead []).1).headerValues "Content-Length" = [toString 2]
    ∧ ((rocketGetOnly.dispatch ⟨⟩ (reqHead.set_method Method.get) []).1).headerValues
        "Content-Length" = [toString 2] :=
  head_auto_fallback.1 rocketGetOnly ⟨⟩ reqHead [] routeSized respSized 2 rfl
    (fun _ => rfl) (fun _ _ => rfl) rfl rfl rfl

/-- Claim C9, counterexample: in a POST form request whose peeked body
prefix contains a form field named `_method` with a valid method value —
but not as the first field — the claim says the method is rewritten, yet
`preprocess` leaves the request unchanged: only the first form field is
ever examined. -/
theorem method_override_counterexample :
    (∃ f ∈ Form.values (Data.peek dataLateMethod 32),
        f.name = "_method" ∧ Method.parse f.value = some Method.put)
    ∧ preprocess_method_override reqPostForm dataLateMethod = reqPostForm
    ∧ (preprocess_method_override reqPostForm dataLateMethod).method = Method.post := by
  refine ⟨?_, ?_, ?_⟩ <;> decide

/-- Claim C9 as amended: only for POST requests with a form content type
does `preprocess` peek a bounded 32-byte prefix of the body; if the
first form field of that prefix is named `_method` and its value parses
as a method, the request's method is rewritten in place; in every other
case (wrong method or content type, different first field name, or an
unparsable value) the method is left unchanged; and the decision never
depends on body bytes beyond the peeked prefix. -/
theorem method_override_amended :
    (∀ (req : Request) (d : Data),
        ¬(req.method = Method.post
            ∧ (req.contentType?.map (·.is_form)).getD false = true) →
        preprocess_method_override req d = req)
    ∧ (∀ (req : Request) (d : Data) (f : FormField) (m : Method),
        req.method = Method.post →
        (req.contentType?.map (·.is_form)).getD false = true →
        (Form.values (Data.peek d 32)).head? = some f →
        f.name = "_method" →
        Method.parse f.value = some m →
        preprocess_method_override req d = req.set_method m)
    ∧ (∀ (req : Request) (d : Data) (f : FormField),
        (Form.values (Data.peek d 32)).head? = some f →
        (¬ f.name = "_method" ∨ Method.parse f.value = none) →
        preprocess_method_override req d = req)
    ∧ (∀ (req : Request) (d e : Data), 32 <= d.length →
        preprocess_method_override req (d ++ e) = preprocess_method_override req d) := by
  refine ⟨?_, ?_, ?_, ?_⟩
  · intro req d h
    unfold preprocess_method_override
    rw [if_neg h]
  · intro req d f m hA hB hhead hname hparse
    unfold preprocess_method_override
    rw [if_pos ⟨hA, hB⟩]
    simp [hhead, Option.filter, hname, hparse]
  · intro req d f hhead hcase
    unfold preprocess_method_override
    split
    · by_cases hn : f.name = "_method"
      · rcases hcase with hc | hc
        · exact absurd hn hc
        · simp [hhead, Option.filter, hn, hc]
      · simp [hhead, Option.filter, hn]
    · rfl
  · intro req d e h32
    have hpeek : Data.peek (d ++ e) 32 = Data.peek d 32 := by
      simp only [Data.peek, List.take_eq_left_iff]
      exact Or.inr h32
    unfold preprocess_method_override
    rw [hpeek]

/-- Witness for the amended C9: a body whose first field is
`_method=PUT` rewrites a POST form request's method to PUT. -/
theorem method_override_amended_witness :
    preprocess_method_override reqPostForm dataFirstMethod
      = reqPostForm.set_method Method.put :=
  method_override_amended.2.1 reqPostForm dataFirstMethod ⟨"_method", "PUT"⟩ Method.put
    rfl rfl (by decide) rfl (by decide)

end Lifecycle
